import Mathlib

/-!
Shallow embedding of `src/roofit/roostats/src/ProfileLikelihoodCalculator.cxx`.

The calculator holds an optional dataset, pdf (model), a parameter-of-interest
set, a null-parameter set, a size (significance) and a cached global fit
result.  Parameter objects (`RooRealVar`) are modelled as records with a name,
value, error and constant flag; `RooArgSet`s of parameters that alias the
pdf's live parameter store are modelled as lists of names resolved against the
threaded store, so that mutations through one set are visible through the
other, as with the pointer sets of the source.

The numerical fitting engine (`RooAbsPdf::fitTo`, `createNLL`) is external to
the translation unit; per the specification it is a collaborator with contract
`fit(model, data, constrainedParams, strategy, hessian, minos) -> FitResult |
failure` and an NLL evaluator.  It is modelled as a record of pure functions.
A null pointer dereference (the source calls `fit->Print()` and
`fit2->minNll()` without a null check) is modelled as an `Except.error`.

Fit-engine invocation counts are returned alongside the results so that the
caching behaviour can be stated.
-/

namespace RooStats

/-- A `RooRealVar`: named parameter with value, error and constant flag. -/
structure Param where
  name : String
  val : ℝ
  error : ℝ
  isConstant : Bool

/-- A `RooFitResult`: minimized NLL and the final floating parameters. -/
structure RooFitResult where
  minNll : ℝ
  floatParsFinal : List Param

/-- The pdf of the model, exposing its parameter objects (the store that
`getParameters` returns pointers into). -/
structure Pdf where
  params : List Param

/-- Fit options forwarded to the engine (`Strategy`, `Hesse`, `Minos`). -/
structure FitConfig where
  strategy : Nat
  hesse : Bool
  minos : Bool

/-- Modelled from the spec: the external fitting engine (RooFit's minimizer
and NLL builder are not part of this translation unit).  `fitTo` receives the
fit configuration, the `Constrain(...)` parameter-name set and the current
parameter store and either produces a fit result or fails; `nllVal` evaluates
the NLL built by `createNLL` at the current parameter values.  The spec's
collaborator contract exposes only the returned result, so the engine is
modelled as pure (it does not mutate the parameter store). -/
structure FitEngine where
  fitTo : FitConfig → List String → List Param → Option RooFitResult
  nllVal : List String → List Param → ℝ

/-- Runtime faults of the source: dereferencing a null fit result. -/
inductive RTErr where
  | nullDeref
deriving DecidableEq

/-- The calculator state (fields of `CombinedCalculator` plus the cached
`fFitResult`).  The dataset is consumed only by the engine, so only its
presence is tracked. -/
structure ProfileLikelihoodCalculator where
  fData : Option Unit
  fPdf : Option Pdf
  fPOI : Option (List Param)
  fNullParams : Option (List Param)
  fSize : ℝ
  fFitResult : Option RooFitResult

/-- A `LikelihoodInterval` as assembled by `GetInterval`: the best-fit POI
set and the confidence level (the profile function it also carries plays no
role in the claims). -/
structure LikelihoodInterval where
  bestPOI : List Param
  confidenceLevel : ℝ

/-- A `HypoTestResult`: the null p-value (the source passes `0` for the
alternate p-value). -/
structure HypoTestResult where
  nullPValue : ℝ
  altPValue : ℝ

/-- `RooArgSet::find`: first element with the given name, if any. -/
def findByName (ps : List Param) (n : String) : Option Param :=
  ps.find? (fun p => p.name = n)

/-- Mutation through a pointer obtained from `find`: update the first
element with the given name, leave the list unchanged when absent. -/
def updateFirst (n : String) (f : Param → Param) : List Param → List Param
  | [] => []
  | p :: ps => if p.name = n then f p :: ps else p :: updateFirst n f ps

/-- `RooStats::RemoveConstantParameters`: drop the constant parameters. -/
def RemoveConstantParameters (ps : List Param) : List Param :=
  ps.filter (fun p => !p.isConstant)

/-- The names of a list of parameters. -/
def paramNames (ps : List Param) : List String :=
  ps.map (fun p => p.name)

/-- `pdf->getParameters(*data)` followed by `RemoveConstantParameters`,
as a set of names aliasing the store. -/
def constrainedParamNames (pdf : Pdf) : List String :=
  paramNames (RemoveConstantParameters pdf.params)

/-- The configuration of the unconditional fit:
`Strategy(1), Hesse(kTRUE)` (no `Minos`). -/
def globalFitConfig : FitConfig := { strategy := 1, hesse := true, minos := false }

/-- The configuration of the conditional fit:
`Hesse(kFALSE), Strategy(0), Minos(kFALSE)`. -/
def condFitConfig : FitConfig := { strategy := 0, hesse := false, minos := false }

/-- `DoReset`: clear the cached fit result. -/
def DoReset (c : ProfileLikelihoodCalculator) : ProfileLikelihoodCalculator :=
  { c with fFitResult := none }

/-- `DoGlobalFit`: reset, then fit the pdf to the data over all non-constant
parameters and cache the result.  Returns early (leaving the cache empty)
when data or pdf are absent.  On an engine failure the source calls
`fit->Print()` on the null result: modelled as `RTErr.nullDeref`.  The
returned number counts the engine invocations for the unconditional fit. -/
def DoGlobalFit (eng : FitEngine) (c : ProfileLikelihoodCalculator) :
    Except RTErr (ProfileLikelihoodCalculator × Nat) :=
  let c1 := DoReset c
  match c1.fPdf, c1.fData with
  | some pdf, some _ =>
    let cp := constrainedParamNames pdf
    match eng.fitTo globalFitConfig cp pdf.params with
    | some fit => Except.ok ({ c1 with fFitResult := some fit }, 1)
    | none => Except.error RTErr.nullDeref
  | _, _ => Except.ok (c1, 0)

/-- `par->setVal(fitPar.getVal()); par->setError(fitPar.getError())`. -/
def setValErr (v e : ℝ) (p : Param) : Param := { p with val := v, error := e }

/-- Lines 180-188 of `GetInterval`: for each parameter of the fit result,
find the POI of the same name and set its value and error to the fitted
ones. -/
def setPOIFromFit (fitPars : List Param) (poi : List Param) : List Param :=
  fitPars.foldl
    (fun acc fp => updateFirst fp.name (setValErr fp.val fp.error) acc)
    poi

/-- `RooArgSet::add`: append unless an element of that name is present. -/
def argSetAdd (s : List Param) (p : Param) : List Param :=
  if s.any (fun q => q.name = p.name) then s else s ++ [p]

/-- Lines 196-203 of `GetInterval`: the best-fit POI set, taking for each POI
the fitted parameter of the same name when present, the POI itself
otherwise. -/
def buildBestPOI (fitPars : List Param) (poi : List Param) : List Param :=
  poi.foldl
    (fun acc arg =>
      match findByName fitPars arg.name with
      | some p => argSetAdd acc p
      | none => argSetAdd acc arg)
    []

/-- `GetInterval`: returns null when data, pdf or POI set is absent;
ensures a cached global fit (returning null when it leaves no result),
copies the fitted values into the POI objects, and assembles the interval
with confidence level `1 - fSize`.  The returned number counts the engine
invocations for the unconditional fit. -/
def GetInterval (eng : FitEngine) (c : ProfileLikelihoodCalculator) :
    Except RTErr (Option LikelihoodInterval × ProfileLikelihoodCalculator × Nat) :=
  match c.fData, c.fPdf, c.fPOI with
  | some _, some _pdf, some poi =>
    match (if c.fFitResult.isSome then Except.ok (c, 0) else DoGlobalFit eng c) with
    | Except.error e => Except.error e
    | Except.ok (c1, g) =>
      match c1.fFitResult with
      | none => Except.ok (none, c1, g)
      | some fit =>
        let poi1 := setPOIFromFit fit.floatParsFinal poi
        let best := buildBestPOI fit.floatParsFinal poi1
        Except.ok (some { bestPOI := best, confidenceLevel := 1 - c.fSize },
          { c1 with fPOI := some poi1 }, g)
  | _, _, _ => Except.ok (none, c, 0)

/-- Modelled from the spec: `SignificanceToPValue` (from `RooStatsUtils.h`,
not part of this translation unit) converts a significance into a one-sided
p-value via the standard normal survival function. -/
noncomputable def SignificanceToPValue (z : ℝ) : ℝ :=
  (∫ x in Set.Ioi z, Real.exp (-(x ^ 2) / 2)) / Real.sqrt (2 * Real.pi)

/-- The p-value computed by `GetHypoTest` from the conditional and
unconditional minimized NLLs:
`SignificanceToPValue(sqrt(2 * max(NLLatCondMLE - NLLatMLE, 0)))`. -/
noncomputable def hypoTestPValue (nllCond nllMLE : ℝ) : ℝ :=
  SignificanceToPValue (Real.sqrt (2 * max (nllCond - nllMLE) 0))

/-- `mytarget->setVal(poiList[i].getVal()); mytarget->setConstant(kTRUE)`. -/
def freezeFn (v : ℝ) (p : Param) : Param := { p with val := v, isConstant := true }

/-- `mytarget->setVal(oldValues[i]); mytarget->setConstant(false)`. -/
def restoreFn (v : ℝ) (p : Param) : Param := { p with val := v, isConstant := false }

/-- Lines 242-252 of `GetHypoTest`: for each null parameter, find the target
of the same name in the constrained-parameter set, record its current value
(`0`, the value-initialized entry of `oldValues`, when absent), set it to the
null value and mark it constant. -/
def freezeNulls (cp : List String) (st : List Param) :
    List Param → List Param × List ℝ
  | [] => (st, [])
  | np :: ns =>
    let mytarget := if np.name ∈ cp then findByName st np.name else none
    match mytarget with
    | some tgt =>
      let st1 := updateFirst np.name (freezeFn np.val) st
      let r := freezeNulls cp st1 ns
      (r.1, tgt.val :: r.2)
    | none =>
      let r := freezeNulls cp st ns
      (r.1, (0 : ℝ) :: r.2)

/-- Lines 298-305 of `GetHypoTest`: for each null parameter found in the
constrained-parameter set, restore the recorded value and clear the constant
flag. -/
def restoreNulls (cp : List String) : List (Param × ℝ) → List Param → List Param
  | [], st => st
  | (np, old) :: rest, st =>
    let mytarget := if np.name ∈ cp then findByName st np.name else none
    match mytarget with
    | some _ =>
      restoreNulls cp rest (updateFirst np.name (restoreFn old) st)
    | none => restoreNulls cp rest st

/-- `nuisParams` after `RemoveConstantParameters`: the members of the
constrained-parameter set that are non-constant in the current store. -/
def nuisNames (cp : List String) (st : List Param) : List String :=
  cp.filter (fun n =>
    match findByName st n with
    | some p => !p.isConstant
    | none => true)

/-- Lines 264-273 of `GetHypoTest`: whether any member of the nuisance set
is non-constant (so that a conditional fit is worth performing). -/
def existVarParams (nuis : List String) (st : List Param) : Bool :=
  nuis.any (fun n =>
    match findByName st n with
    | some p => !p.isConstant
    | none => false)

/-- `GetHypoTest`: returns null when data, pdf or null-parameter set is
absent or the global fit leaves no cached result; freezes the null
parameters, computes the conditional NLL (by a conditional fit when free
parameters remain, by direct NLL evaluation otherwise — a failed conditional
fit is dereferenced by `fit2->minNll()`, modelled as `RTErr.nullDeref`),
converts the clamped NLL difference into a p-value and restores the null
parameters.  The returned numbers count the engine invocations for the
unconditional and the conditional fit. -/
noncomputable def GetHypoTest (eng : FitEngine) (c : ProfileLikelihoodCalculator) :
    Except RTErr (Option HypoTestResult × ProfileLikelihoodCalculator × Nat × Nat) :=
  match c.fPdf, c.fData with
  | some pdf, some _ =>
    match c.fNullParams with
    | none => Except.ok (none, c, 0, 0)
    | some nulls =>
      match (if c.fFitResult.isSome then Except.ok (c, 0) else DoGlobalFit eng c) with
      | Except.error e => Except.error e
      | Except.ok (c1, g) =>
        match c1.fFitResult with
        | none => Except.ok (none, c1, g, 0)
        | some fit =>
          let cp := constrainedParamNames pdf
          let NLLatMLE := fit.minNll
          let fz := freezeNulls cp pdf.params nulls
          let st1 := fz.1
          let oldValues := fz.2
          let nuis := nuisNames cp st1
          let finish : ℝ → Nat → Option HypoTestResult ×
              ProfileLikelihoodCalculator × Nat × Nat := fun NLLatCondMLE cc =>
            let htr : HypoTestResult :=
              { nullPValue := hypoTestPValue NLLatCondMLE NLLatMLE, altPValue := 0 }
            let st2 := restoreNulls cp (nulls.zip oldValues) st1
            (some htr, { c1 with fPdf := some { params := st2 } }, g, cc)
          if existVarParams nuis st1 then
            match eng.fitTo condFitConfig cp st1 with
            | some fit2 => Except.ok (finish fit2.minNll 1)
            | none => Except.error RTErr.nullDeref
          else
            Except.ok (finish (eng.nllVal cp st1) 0)
  | _, _ => Except.ok (none, c, 0, 0)

/-- A query against the calculator: the two public entry points. -/
inductive Query where
  | interval
  | hypoTest

/-- Run a query, keeping the updated calculator and the number of
unconditional-fit engine invocations. -/
noncomputable def runQuery (q : Query) (eng : FitEngine)
    (c : ProfileLikelihoodCalculator) :
    Except RTErr (ProfileLikelihoodCalculator × Nat) :=
  match q with
  | Query.interval =>
    match GetInterval eng c with
    | Except.error e => Except.error e
    | Except.ok (_, c1, g) => Except.ok (c1, g)
  | Query.hypoTest =>
    match GetHypoTest eng c with
    | Except.error e => Except.error e
    | Except.ok (_, c1, g, _) => Except.ok (c1, g)

/-- All four configuration inputs are present. -/
def FullyConfigured (c : ProfileLikelihoodCalculator) : Prop :=
  c.fData.isSome = true ∧ c.fPdf.isSome = true ∧
  c.fPOI.isSome = true ∧ c.fNullParams.isSome = true

/-! Concrete instances used to evaluate the model: a one-POI model with one
nuisance parameter, data fixed so that the unconditional MLE has NLL `10`
and the conditional fit at the null `mu = 0` has NLL `15.2` (the end-to-end
scenario of the spec). -/

/-- The parameter of interest, initially at `5`. -/
def muParam : Param := { name := "mu", val := 5, error := 1, isConstant := false }

/-- A nuisance parameter. -/
def thetaParam : Param := { name := "theta", val := 1, error := 1, isConstant := false }

/-- The null hypothesis: `mu = 0`. -/
def nullMu : Param := { name := "mu", val := 0, error := 0, isConstant := false }

/-- The model pdf with its two parameters. -/
def scenarioPdf : Pdf := { params := [muParam, thetaParam] }

/-- The unconditional fit result: NLL `10`, both parameters floated. -/
def globalFitW : RooFitResult :=
  { minNll := 10,
    floatParsFinal := [{ name := "mu", val := 5, error := 1, isConstant := false },
                       { name := "theta", val := 2, error := 1, isConstant := false }] }

/-- The conditional fit result at the frozen null: NLL `15.2`. -/
def condFitW : RooFitResult :=
  { minNll := 15.2,
    floatParsFinal := [{ name := "theta", val := 3, error := 1, isConstant := false }] }

/-- The engine of the scenario: the unconditional fit (with `mu` floating)
yields `globalFitW`, the conditional fit (with `mu` frozen) yields
`condFitW`; the direct NLL at the frozen null is `15.2`. -/
def scenarioEngine : FitEngine :=
  { fitTo := fun _ _ st =>
      match findByName st "mu" with
      | some p => if p.isConstant then some condFitW else some globalFitW
      | none => none,
    nllVal := fun _ _ => 15.2 }

/-- A conditional fit result whose NLL lies below the unconditional one
(numerical noise fixture). -/
def condLowFitW : RooFitResult :=
  { minNll := 9,
    floatParsFinal := [{ name := "theta", val := 3, error := 1, isConstant := false }] }

/-- The engine of the clamping fixture: the conditional fit comes out
slightly below the unconditional minimum. -/
def clampEngine : FitEngine :=
  { fitTo := fun _ _ st =>
      match findByName st "mu" with
      | some p => if p.isConstant then some condLowFitW else some globalFitW
      | none => none,
    nllVal := fun _ _ => 9 }

/-- A freshly configured calculator (no cached fit), size `0.05`. -/
def scenarioCalc : ProfileLikelihoodCalculator :=
  { fData := some (), fPdf := some scenarioPdf, fPOI := some [muParam],
    fNullParams := some [nullMu], fSize := 0.05, fFitResult := none }

/-- The scenario calculator with the unconditional fit already cached. -/
def cachedCalc : ProfileLikelihoodCalculator :=
  { scenarioCalc with fFitResult := some globalFitW }

/-- A model whose only parameter is the POI itself: freezing the null
leaves no free parameter. -/
def noFreePdf : Pdf := { params := [muParam] }

/-- Calculator over `noFreePdf`, with a cached unconditional fit. -/
def noFreeCalc : ProfileLikelihoodCalculator :=
  { fData := some (), fPdf := some noFreePdf, fPOI := some [muParam],
    fNullParams := some [nullMu], fSize := 0.05, fFitResult := some globalFitW }

/-- An engine that fails to produce any fit result. -/
def failEngine : FitEngine :=
  { fitTo := fun _ _ _ => none, nllVal := fun _ _ => 0 }

/-- An engine whose unconditional fit succeeds but whose conditional fit
(strategy `0`) fails to produce a result. -/
def condFailEngine : FitEngine :=
  { fitTo := fun cfg _ _ => if cfg.strategy = 1 then some globalFitW else none,
    nllVal := fun _ _ => 0 }

/-- A calculator with data and pdf but no POI set. -/
def noPOICalc : ProfileLikelihoodCalculator :=
  { fData := some (), fPdf := some scenarioPdf, fPOI := none,
    fNullParams := none, fSize := 0.05, fFitResult := none }

/-! Lemmas about the name-keyed parameter store. -/

lemma freezeFn_name (v : ℝ) : ∀ p : Param, (freezeFn v p).name = p.name :=
  fun _ => rfl

lemma restoreFn_name (v : ℝ) : ∀ p : Param, (restoreFn v p).name = p.name :=
  fun _ => rfl

lemma mem_paramNames {ps : List Param} {n : String} :
    n ∈ paramNames ps ↔ ∃ p ∈ ps, p.name = n := by
  simp [paramNames]

lemma findByName_name {ps : List Param} {n : String} {p : Param}
    (h : findByName ps n = some p) : p.name = n := by
  have := List.find?_some h
  simpa using this

lemma findByName_mem {ps : List Param} {n : String} {p : Param}
    (h : findByName ps n = some p) : p ∈ ps :=
  List.mem_of_find?_eq_some h

lemma findByName_eq_none {ps : List Param} {n : String}
    (h : n ∉ paramNames ps) : findByName ps n = none := by
  rw [findByName, List.find?_eq_none]
  intro p hp
  simp only [decide_eq_true_eq]
  intro hpn
  exact h (mem_paramNames.mpr ⟨p, hp, hpn⟩)

lemma findByName_of_mem_nodup {ps : List Param} {q : Param} {n : String}
    (hnd : (paramNames ps).Nodup) (hq : q ∈ ps) (hn : q.name = n) :
    findByName ps n = some q := by
  induction ps with
  | nil => cases hq
  | cons p ps ih =>
    have hnd2 : p.name ∉ paramNames ps ∧ (paramNames ps).Nodup := by
      simpa [paramNames] using hnd
    rcases List.mem_cons.mp hq with rfl | hq2
    · simp [findByName, List.find?_cons, hn]
    · have hpn : ¬ p.name = n := by
        intro hcontra
        exact hnd2.1 (mem_paramNames.mpr ⟨q, hq2, hn.trans hcontra.symm⟩)
      simpa [findByName, List.find?_cons, hpn] using ih hnd2.2 hq2

lemma updateFirst_names {n : String} {f : Param → Param}
    (hf : ∀ p, (f p).name = p.name) :
    ∀ st : List Param, paramNames (updateFirst n f st) = paramNames st := by
  intro st
  induction st with
  | nil => rfl
  | cons p ps ih =>
    by_cases hp : p.name = n
    · simp [updateFirst, hp, paramNames, hf]
    · simp [updateFirst, hp, paramNames] at ih ⊢
      exact ih

lemma findByName_updateFirst_ne {n m : String} {f : Param → Param}
    (hf : ∀ p, (f p).name = p.name) (hne : n ≠ m) :
    ∀ st : List Param, findByName (updateFirst m f st) n = findByName st n := by
  intro st
  induction st with
  | nil => rfl
  | cons p ps ih =>
    simp only [updateFirst]
    by_cases hp : p.name = m
    · have h1 : ¬ (f p).name = n := by rw [hf, hp]; exact fun h => hne h.symm
      have hpn : ¬ p.name = n := by rw [hp]; exact fun h => hne h.symm
      rw [if_pos hp]
      simp [findByName, List.find?_cons, h1, hpn]
    · rw [if_neg hp]
      by_cases hpn : p.name = n
      · simp [findByName, List.find?_cons, hpn]
      · simpa [findByName, List.find?_cons, hpn] using ih

lemma findByName_updateFirst_self {n : String} {f : Param → Param}
    (hf : ∀ p, (f p).name = p.name) :
    ∀ st : List Param, findByName (updateFirst n f st) n = (findByName st n).map f := by
  intro st
  induction st with
  | nil => rfl
  | cons p ps ih =>
    by_cases hp : p.name = n
    · have : (f p).name = n := by rw [hf, hp]
      simp [updateFirst, hp, findByName, List.find?_cons, this]
    · simpa [updateFirst, hp, findByName, List.find?_cons, hp] using ih

lemma updateFirst_comm {n m : String} {f g : Param → Param}
    (hf : ∀ p, (f p).name = p.name) (hg : ∀ p, (g p).name = p.name)
    (hnm : n ≠ m) :
    ∀ st : List Param,
      updateFirst n f (updateFirst m g st) = updateFirst m g (updateFirst n f st) := by
  intro st
  induction st with
  | nil => rfl
  | cons p ps ih =>
    simp only [updateFirst]
    by_cases hpm : p.name = m
    · have hpn : ¬ p.name = n := by rw [hpm]; exact fun h => hnm h.symm
      have h1 : ¬ (g p).name = n := by rw [hg, hpm]; exact fun h => hnm h.symm
      rw [if_pos hpm, if_neg hpn]
      simp only [updateFirst]
      rw [if_neg h1, if_pos hpm]
    · rw [if_neg hpm]
      by_cases hpn : p.name = n
      · have h1 : ¬ (f p).name = m := by rw [hf]; exact hpm
        rw [if_pos hpn]
        simp only [updateFirst]
        rw [if_pos hpn, if_neg h1]
      · rw [if_neg hpn]
        simp only [updateFirst]
        rw [if_neg hpn, if_neg hpm, ih]

lemma updateFirst_updateFirst {n : String} {f g : Param → Param}
    (hg : ∀ p, (g p).name = p.name) :
    ∀ st : List Param,
      updateFirst n f (updateFirst n g st) = updateFirst n (fun p => f (g p)) st := by
  intro st
  induction st with
  | nil => rfl
  | cons p ps ih =>
    by_cases hp : p.name = n
    · have : (g p).name = n := by rw [hg, hp]
      simp [updateFirst, hp, this]
    · simp [updateFirst, hp, ih]

lemma updateFirst_of_find {n : String} {f : Param → Param} {tgt : Param} :
    ∀ st : List Param, findByName st n = some tgt → f tgt = tgt →
    updateFirst n f st = st := by
  intro st
  induction st with
  | nil => intro h; cases h
  | cons p ps ih =>
    intro hfind hid
    simp only [updateFirst]
    by_cases hp : p.name = n
    · have hpt : p = tgt := by
        have := hfind
        simpa [findByName, List.find?_cons, hp] using this
      rw [if_pos hp, hpt, hid]
    · have hrest : findByName ps n = some tgt := by
        simpa [findByName, List.find?_cons, hp] using hfind
      rw [if_neg hp, ih hrest hid]

/-! Freezing the null parameters and then restoring them is the identity on
the parameter store (under the `RooArgSet` name-uniqueness invariant). -/

lemma freezeNulls_names (cp : List String) :
    ∀ (ns st : List Param), paramNames (freezeNulls cp st ns).1 = paramNames st := by
  intro ns
  induction ns with
  | nil => intro st; rfl
  | cons np ns ih =>
    intro st
    simp only [freezeNulls]
    cases h : (if np.name ∈ cp then findByName st np.name else none) with
    | some tgt =>
      simp only [h]
      rw [ih]
      exact updateFirst_names (freezeFn_name np.val) st
    | none =>
      simp only [h]
      exact ih st

lemma freezeNulls_find_ne (cp : List String) {n : String} :
    ∀ (ns st : List Param), n ∉ paramNames ns →
    findByName (freezeNulls cp st ns).1 n = findByName st n := by
  intro ns
  induction ns with
  | nil => intro st _; rfl
  | cons np ns ih =>
    intro st hn
    have hn1 : ¬ n = np.name := by
      intro h; exact hn (by simp [paramNames, h])
    have hn2 : n ∉ paramNames ns := fun h => hn (by simp [paramNames] at h ⊢; right; exact h)
    simp only [freezeNulls]
    cases h : (if np.name ∈ cp then findByName st np.name else none) with
    | some tgt =>
      simp only [h]
      rw [ih _ hn2, findByName_updateFirst_ne (freezeFn_name np.val) hn1]
    | none =>
      simp only [h]
      exact ih _ hn2

lemma restoreNulls_updateFirst (cp : List String) {m : String} {f : Param → Param}
    (hf : ∀ p, (f p).name = p.name) :
    ∀ (pairs : List (Param × ℝ)) (st : List Param),
    (∀ pr ∈ pairs, (pr : Param × ℝ).1.name ≠ m) →
    restoreNulls cp pairs (updateFirst m f st) =
      updateFirst m f (restoreNulls cp pairs st) := by
  intro pairs
  induction pairs with
  | nil => intro st _; rfl
  | cons pr rest ih =>
    intro st hm
    obtain ⟨np, old⟩ := pr
    have hnp : np.name ≠ m := hm (np, old) (List.mem_cons_self _ _)
    simp only [restoreNulls]
    rw [findByName_updateFirst_ne (f := f) hf hnp st]
    cases h : (if np.name ∈ cp then findByName st np.name else none) with
    | some tgt =>
      simp only [h]
      rw [updateFirst_comm (restoreFn_name old) hf hnp st]
      exact ih _ (fun q hq => hm q (List.mem_cons_of_mem _ hq))
    | none =>
      simp only [h]
      exact ih _ (fun q hq => hm q (List.mem_cons_of_mem _ hq))

lemma freeze_restore (cp : List String) :
    ∀ (ns st : List Param),
    (paramNames st).Nodup →
    (paramNames ns).Nodup →
    (∀ np ∈ ns, np.name ∈ cp →
      ∃ p, findByName st np.name = some p ∧ p.isConstant = false) →
    restoreNulls cp (ns.zip (freezeNulls cp st ns).2) (freezeNulls cp st ns).1 = st := by
  intro ns
  induction ns with
  | nil => intro st _ _ _; rfl
  | cons np ns ih =>
    intro st hstN hnsN hcp
    have hnpns : np.name ∉ paramNames ns ∧ (paramNames ns).Nodup := by
      simpa [paramNames] using hnsN
    by_cases hmem : np.name ∈ cp
    · obtain ⟨tgt, htgt, htc⟩ := hcp np (List.mem_cons_self _ _) hmem
      have hiftgt : (if np.name ∈ cp then findByName st np.name else none) = some tgt := by
        rw [if_pos hmem, htgt]
      simp only [freezeNulls, hiftgt]
      set st1 := updateFirst np.name (freezeFn np.val) st with hst1
      rw [List.zip_cons_cons]
      simp only [restoreNulls]
      have hfindF : findByName (freezeNulls cp st1 ns).1 np.name =
          some (freezeFn np.val tgt) := by
        rw [freezeNulls_find_ne cp ns st1 hnpns.1, hst1,
          findByName_updateFirst_self (freezeFn_name np.val) st, htgt]
        rfl
      have hifF : (if np.name ∈ cp
          then findByName (freezeNulls cp st1 ns).1 np.name else none) =
          some (freezeFn np.val tgt) := by
        rw [if_pos hmem, hfindF]
      simp only [hifF]
      rw [restoreNulls_updateFirst cp (restoreFn_name tgt.val) _ _
        (fun pr hpr => by
          intro hc
          have hmem2 : (pr : Param × ℝ).1 ∈ ns := (List.of_mem_zip hpr).1
          exact hnpns.1 (mem_paramNames.mpr ⟨pr.1, hmem2, hc⟩))]
      have hIH : restoreNulls cp (ns.zip (freezeNulls cp st1 ns).2)
          (freezeNulls cp st1 ns).1 = st1 := by
        apply ih st1
        · rw [hst1, updateFirst_names (freezeFn_name np.val)]; exact hstN
        · exact hnpns.2
        · intro np2 hnp2 hmem2
          obtain ⟨p2, hp2, hp2c⟩ := hcp np2 (List.mem_cons_of_mem _ hnp2) hmem2
          refine ⟨p2, ?_, hp2c⟩
          rw [hst1, findByName_updateFirst_ne (freezeFn_name np.val) ?_ st]
          · exact hp2
          · intro hc
            exact hnpns.1 (mem_paramNames.mpr ⟨np2, hnp2, hc⟩)
      rw [hIH, hst1, updateFirst_updateFirst (freezeFn_name np.val) st]
      apply updateFirst_of_find st htgt
      cases tgt with
      | mk nm v e ic =>
        simp at htc
        simp [freezeFn, restoreFn, htc]
    · have hif : (if np.name ∈ cp then findByName st np.name else none) = none := by
        rw [if_neg hmem]
      simp only [freezeNulls, hif]
      rw [List.zip_cons_cons]
      simp only [restoreNulls]
      have hifF : (if np.name ∈ cp
          then findByName (freezeNulls cp st ns).1 np.name else none) = none := by
        rw [if_neg hmem]
      simp only [hifF]
      exact ih st hstN hnpns.2
        (fun np2 hnp2 hmem2 => hcp np2 (List.mem_cons_of_mem _ hnp2) hmem2)

lemma constrainedParamNames_spec {pdf : Pdf}
    (h : (paramNames pdf.params).Nodup) :
    ∀ n ∈ constrainedParamNames pdf,
    ∃ p, findByName pdf.params n = some p ∧ p.isConstant = false := by
  intro n hn
  simp only [constrainedParamNames, paramNames, RemoveConstantParameters,
    List.mem_map, List.mem_filter] at hn
  obtain ⟨p, ⟨hpmem, hpc⟩, hpn⟩ := hn
  refine ⟨p, findByName_of_mem_nodup h hpmem hpn, ?_⟩
  simpa using hpc

/-! Characterizations of the POI mutation and of the best-fit POI set built
by `GetInterval`. -/

lemma setValErr_name (v e : ℝ) : ∀ p : Param, (setValErr v e p).name = p.name :=
  fun _ => rfl

lemma map_if_not_mem {n : String} {f : Param → Param} :
    ∀ st : List Param, n ∉ paramNames st →
    st.map (fun p => if p.name = n then f p else p) = st := by
  intro st
  induction st with
  | nil => intro _; rfl
  | cons p ps ih =>
    intro h
    have h1 : ¬ p.name = n := by
      intro hc; exact h (mem_paramNames.mpr ⟨p, List.mem_cons_self _ _, hc⟩)
    have h2 : n ∉ paramNames ps := by
      intro hc
      obtain ⟨q, hq, hqn⟩ := mem_paramNames.mp hc
      exact h (mem_paramNames.mpr ⟨q, List.mem_cons_of_mem _ hq, hqn⟩)
    simp only [List.map_cons, if_neg h1, ih h2]

lemma updateFirst_eq_map {n : String} {f : Param → Param} :
    ∀ st : List Param, (paramNames st).Nodup →
    updateFirst n f st = st.map (fun p => if p.name = n then f p else p) := by
  intro st
  induction st with
  | nil => intro _; rfl
  | cons p ps ih =>
    intro hnd
    have hnd2 : p.name ∉ paramNames ps ∧ (paramNames ps).Nodup := by
      simpa [paramNames] using hnd
    simp only [updateFirst, List.map_cons]
    by_cases hp : p.name = n
    · rw [if_pos hp, if_pos hp]
      have : n ∉ paramNames ps := by rw [← hp]; exact hnd2.1
      rw [map_if_not_mem ps this]
    · rw [if_neg hp, if_neg hp, ih hnd2.2]

lemma setPOIFromFit_names :
    ∀ (fitPars poi : List Param),
    paramNames (setPOIFromFit fitPars poi) = paramNames poi := by
  intro fitPars
  induction fitPars with
  | nil => intro poi; rfl
  | cons fp fps ih =>
    intro poi
    have hstep : setPOIFromFit (fp :: fps) poi =
        setPOIFromFit fps (updateFirst fp.name (setValErr fp.val fp.error) poi) := rfl
    rw [hstep, ih, updateFirst_names (setValErr_name fp.val fp.error)]

lemma setPOIFromFit_eq_map :
    ∀ (fitPars poi : List Param),
    (paramNames fitPars).Nodup → (paramNames poi).Nodup →
    setPOIFromFit fitPars poi = poi.map (fun a =>
      match findByName fitPars a.name with
      | some fp => { a with val := fp.val, error := fp.error }
      | none => a) := by
  intro fitPars
  induction fitPars with
  | nil =>
    intro poi _ _
    have hFa : ∀ a ∈ poi, (match findByName ([] : List Param) a.name with
        | some fp => { a with val := fp.val, error := fp.error }
        | none => a) = id a := by
      intro a _; rfl
    rw [List.map_congr_left hFa, List.map_id]
    rfl
  | cons fp fps ih =>
    intro poi hndF hndP
    have hndF2 : fp.name ∉ paramNames fps ∧ (paramNames fps).Nodup := by
      simpa [paramNames] using hndF
    have hstep : setPOIFromFit (fp :: fps) poi =
        setPOIFromFit fps (updateFirst fp.name (setValErr fp.val fp.error) poi) := rfl
    have hndP2 : (paramNames (updateFirst fp.name (setValErr fp.val fp.error) poi)).Nodup := by
      rw [updateFirst_names (setValErr_name fp.val fp.error)]; exact hndP
    rw [hstep, ih _ hndF2.2 hndP2,
      updateFirst_eq_map poi hndP, List.map_map]
    apply List.map_congr_left
    intro a _
    by_cases han : a.name = fp.name
    · have h1 : findByName fps a.name = none := by
        apply findByName_eq_none
        rw [han]; exact hndF2.1
      have h2 : findByName (fp :: fps) a.name = some fp := by
        simp [findByName, List.find?_cons, han.symm]
      simp only [Function.comp_apply, if_pos han]
      rw [h2]
      have h3 : (setValErr fp.val fp.error a).name = a.name := rfl
      simp only [h3, h1]
      rfl
    · have h2 : findByName (fp :: fps) a.name = findByName fps a.name := by
        have : ¬ fp.name = a.name := fun h => han h.symm
        simp [findByName, List.find?_cons, this]
      simp only [Function.comp_apply, if_neg han]
      rw [h2]

lemma buildBestPOI_aux (fitPars : List Param) :
    ∀ (poi acc : List Param), (paramNames poi).Nodup →
    (∀ q ∈ acc, q.name ∉ paramNames poi) →
    poi.foldl (fun acc2 arg =>
      match findByName fitPars arg.name with
      | some p => argSetAdd acc2 p
      | none => argSetAdd acc2 arg) acc =
    acc ++ poi.map (fun a => (findByName fitPars a.name).getD a) := by
  intro poi
  induction poi with
  | nil => intro acc _ _; simp
  | cons a poi ih =>
    intro acc hnd hacc
    have hnd2 : a.name ∉ paramNames poi ∧ (paramNames poi).Nodup := by
      simpa [paramNames] using hnd
    have hxname : ((findByName fitPars a.name).getD a).name = a.name := by
      cases hfa : findByName fitPars a.name with
      | some p => simpa using findByName_name hfa
      | none => rfl
    have hnotin : ¬ acc.any (fun q => q.name = ((findByName fitPars a.name).getD a).name) = true := by
      rw [hxname]
      simp only [List.any_eq_true, decide_eq_true_eq, not_exists]
      intro q hq
      exact hacc q hq.1 (mem_paramNames.mpr ⟨a, List.mem_cons_self _ _, hq.2.symm⟩)
    have hadd : (match findByName fitPars a.name with
        | some p => argSetAdd acc p
        | none => argSetAdd acc a) =
        acc ++ [(findByName fitPars a.name).getD a] := by
      cases hfa : findByName fitPars a.name with
      | some p =>
        rw [hfa] at hnotin
        simp only [Option.getD_some] at hnotin ⊢
        simp only [argSetAdd]
        rw [if_neg hnotin]
      | none =>
        rw [hfa] at hnotin
        simp only [Option.getD_none] at hnotin ⊢
        simp only [argSetAdd]
        rw [if_neg hnotin]
    simp only [List.foldl_cons, hadd]
    rw [ih (acc ++ [(findByName fitPars a.name).getD a]) hnd2.2 ?_]
    · simp
    · intro q hq
      rcases List.mem_append.mp hq with hq1 | hq2
      · intro hc
        obtain ⟨r, hr, hrn⟩ := mem_paramNames.mp hc
        exact hacc q hq1 (mem_paramNames.mpr ⟨r, List.mem_cons_of_mem _ hr, hrn⟩)
      · have : q = (findByName fitPars a.name).getD a := by simpa using hq2
        rw [this, hxname]
        exact hnd2.1

lemma buildBestPOI_eq_map (fitPars : List Param) {poi : List Param}
    (hnd : (paramNames poi).Nodup) :
    buildBestPOI fitPars poi =
      poi.map (fun a => (findByName fitPars a.name).getD a) := by
  have := buildBestPOI_aux fitPars poi [] hnd (by intro q hq; cases hq)
  simpa [buildBestPOI] using this

/-! Symbolic runs of the two public queries. -/

lemma getInterval_cached {eng : FitEngine} {c : ProfileLikelihoodCalculator}
    {pdf : Pdf} {poi : List Param} {fit : RooFitResult}
    (hd : c.fData = some ()) (hp : c.fPdf = some pdf) (hpoi : c.fPOI = some poi)
    (hfit : c.fFitResult = some fit) :
    GetInterval eng c = Except.ok (some
      { bestPOI := buildBestPOI fit.floatParsFinal (setPOIFromFit fit.floatParsFinal poi),
        confidenceLevel := 1 - c.fSize },
      { c with fPOI := some (setPOIFromFit fit.floatParsFinal poi) }, 0) := by
  simp only [GetInterval, hd, hp, hpoi, hfit, Option.isSome_some, if_true]

lemma getHypoTest_run_fit {eng : FitEngine} {c : ProfileLikelihoodCalculator}
    {pdf : Pdf} {nulls : List Param} {fit fit2 : RooFitResult}
    (hd : c.fData = some ()) (hp : c.fPdf = some pdf)
    (hnull : c.fNullParams = some nulls) (hfit : c.fFitResult = some fit)
    (hev : existVarParams
      (nuisNames (constrainedParamNames pdf)
        (freezeNulls (constrainedParamNames pdf) pdf.params nulls).1)
      (freezeNulls (constrainedParamNames pdf) pdf.params nulls).1 = true)
    (hfit2 : eng.fitTo condFitConfig (constrainedParamNames pdf)
      (freezeNulls (constrainedParamNames pdf) pdf.params nulls).1 = some fit2) :
    GetHypoTest eng c = Except.ok (some
      { nullPValue := hypoTestPValue fit2.minNll fit.minNll, altPValue := 0 },
      { c with fPdf := some (Pdf.mk
          (restoreNulls (constrainedParamNames pdf)
            (nulls.zip (freezeNulls (constrainedParamNames pdf) pdf.params nulls).2)
            (freezeNulls (constrainedParamNames pdf) pdf.params nulls).1)) }, 0, 1) := by
  simp only [GetHypoTest, hd, hp, hnull, hfit, Option.isSome_some, if_true,
    hev, hfit2]

lemma getHypoTest_run_noFit {eng : FitEngine} {c : ProfileLikelihoodCalculator}
    {pdf : Pdf} {nulls : List Param} {fit : RooFitResult}
    (hd : c.fData = some ()) (hp : c.fPdf = some pdf)
    (hnull : c.fNullParams = some nulls) (hfit : c.fFitResult = some fit)
    (hev : existVarParams
      (nuisNames (constrainedParamNames pdf)
        (freezeNulls (constrainedParamNames pdf) pdf.params nulls).1)
      (freezeNulls (constrainedParamNames pdf) pdf.params nulls).1 = false) :
    GetHypoTest eng c = Except.ok (some
      { nullPValue := hypoTestPValue
          (eng.nllVal (constrainedParamNames pdf)
            (freezeNulls (constrainedParamNames pdf) pdf.params nulls).1)
          fit.minNll, altPValue := 0 },
      { c with fPdf := some (Pdf.mk
          (restoreNulls (constrainedParamNames pdf)
            (nulls.zip (freezeNulls (constrainedParamNames pdf) pdf.params nulls).2)
            (freezeNulls (constrainedParamNames pdf) pdf.params nulls).1)) }, 0, 0) := by
  simp only [GetHypoTest, hd, hp, hnull, hfit, Option.isSome_some, if_true,
    hev, Bool.false_eq_true, if_false]

/-! State analysis of `GetHypoTest` across all its exits. -/

lemma doGlobalFit_fPdf {eng : FitEngine} {c c2 : ProfileLikelihoodCalculator}
    {g : Nat} (h : DoGlobalFit eng c = Except.ok (c2, g)) : c2.fPdf = c.fPdf := by
  simp only [DoGlobalFit, DoReset] at h
  split at h
  · split at h
    · simp only [Except.ok.injEq, Prod.mk.injEq] at h
      rw [← h.1]
    · cases h
  · simp only [Except.ok.injEq, Prod.mk.injEq] at h
    rw [← h.1]

lemma cacheStep_fPdf {eng : FitEngine} {c c2 : ProfileLikelihoodCalculator}
    {g : Nat}
    (h : (if c.fFitResult.isSome then Except.ok (c, 0) else DoGlobalFit eng c) =
      Except.ok (c2, g)) : c2.fPdf = c.fPdf := by
  by_cases hs : c.fFitResult.isSome
  · rw [if_pos hs] at h
    simp only [Except.ok.injEq, Prod.mk.injEq] at h
    rw [← h.1]
  · rw [if_neg hs] at h
    exact doGlobalFit_fPdf h

lemma getHypoTest_state {eng : FitEngine} {c : ProfileLikelihoodCalculator}
    {pdf : Pdf} {nulls : List Param} {res : Option HypoTestResult}
    {c1 : ProfileLikelihoodCalculator} {g cc : Nat}
    (hp : c.fPdf = some pdf) (hnull : c.fNullParams = some nulls)
    (hrun : GetHypoTest eng c = Except.ok (res, c1, g, cc)) :
    c1.fPdf = some pdf ∨
    c1.fPdf = some (Pdf.mk (restoreNulls (constrainedParamNames pdf)
      (nulls.zip (freezeNulls (constrainedParamNames pdf) pdf.params nulls).2)
      (freezeNulls (constrainedParamNames pdf) pdf.params nulls).1)) := by
  cases hd : c.fData with
  | none =>
    simp only [GetHypoTest, hp, hd, Except.ok.injEq, Prod.mk.injEq] at hrun
    left
    rw [← hrun.2.1]
    exact hp
  | some u =>
    simp only [GetHypoTest, hp, hd, hnull] at hrun
    split at hrun
    · cases hrun
    · rename_i x c1a ga heq
      have hpdf1 : c1a.fPdf = some pdf := by rw [cacheStep_fPdf heq]; exact hp
      split at hrun
      · simp only [Except.ok.injEq, Prod.mk.injEq] at hrun
        left
        rw [← hrun.2.1]
        exact hpdf1
      · split at hrun
        · split at hrun
          · rename_i fit2 hfit2
            simp only [Except.ok.injEq, Prod.mk.injEq] at hrun
            right
            rw [← hrun.2.1]
          · cases hrun
        · simp only [Except.ok.injEq, Prod.mk.injEq] at hrun
          right
          rw [← hrun.2.1]

/-! Fit-invocation accounting for the two queries. -/

lemma cacheStep_spec {eng : FitEngine} {c c2 : ProfileLikelihoodCalculator} {g : Nat}
    (hd : c.fData.isSome = true) (hp : c.fPdf.isSome = true)
    (h : (if c.fFitResult.isSome then Except.ok (c, 0) else DoGlobalFit eng c) =
      Except.ok (c2, g)) :
    c2.fFitResult.isSome = true ∧ c2.fData = c.fData ∧ c2.fPdf = c.fPdf ∧
    c2.fPOI = c.fPOI ∧ c2.fNullParams = c.fNullParams ∧
    (c.fFitResult = none → g = 1) ∧ (c.fFitResult.isSome = true → g = 0) := by
  by_cases hs : c.fFitResult.isSome = true
  · rw [if_pos hs] at h
    simp only [Except.ok.injEq, Prod.mk.injEq] at h
    obtain ⟨hc, hg⟩ := h
    subst hc
    refine ⟨hs, rfl, rfl, rfl, rfl, ?_, fun _ => hg.symm⟩
    intro h0
    rw [h0] at hs
    cases hs
  · have h0 : c.fFitResult = none := by
      cases hfr : c.fFitResult with
      | none => rfl
      | some fit => rw [hfr] at hs; exact absurd rfl hs
    rw [if_neg hs] at h
    obtain ⟨d, hdd⟩ := Option.isSome_iff_exists.mp hd
    obtain ⟨pdf, hpp⟩ := Option.isSome_iff_exists.mp hp
    simp only [DoGlobalFit, DoReset, hdd, hpp] at h
    split at h
    · rename_i fit hfit
      simp only [Except.ok.injEq, Prod.mk.injEq] at h
      obtain ⟨hc, hg⟩ := h
      rw [← hc]
      refine ⟨rfl, hdd.symm, hpp.symm, rfl, rfl, fun _ => hg.symm, ?_⟩
      intro hcontra
      rw [h0] at hcontra
      cases hcontra
    · cases h

lemma getInterval_spec {eng : FitEngine} {c : ProfileLikelihoodCalculator}
    {r : Option LikelihoodInterval} {c1 : ProfileLikelihoodCalculator} {g : Nat}
    (hd : c.fData.isSome = true) (hp : c.fPdf.isSome = true)
    (hpoi : c.fPOI.isSome = true)
    (hrun : GetInterval eng c = Except.ok (r, c1, g)) :
    c1.fFitResult.isSome = true ∧ c1.fData = c.fData ∧ c1.fPdf = c.fPdf ∧
    c1.fPOI.isSome = true ∧ c1.fNullParams = c.fNullParams ∧
    (c.fFitResult = none → g = 1) ∧ (c.fFitResult.isSome = true → g = 0) := by
  obtain ⟨d, hdd⟩ := Option.isSome_iff_exists.mp hd
  obtain ⟨pdf, hpp⟩ := Option.isSome_iff_exists.mp hp
  obtain ⟨poi, hpo⟩ := Option.isSome_iff_exists.mp hpoi
  simp only [GetInterval, hdd, hpp, hpo] at hrun
  split at hrun
  · cases hrun
  · rename_i x c1a ga heq
    have hspec := cacheStep_spec hd hp heq
    split at hrun
    · rename_i hnone
      rw [hnone] at hspec
      cases hspec.1
    · rename_i fit hfit
      simp only [Except.ok.injEq, Prod.mk.injEq] at hrun
      obtain ⟨-, hc, hg⟩ := hrun
      rw [← hc]
      refine ⟨?_, ?_, ?_, rfl, ?_, ?_, ?_⟩
      · show c1a.fFitResult.isSome = true
        exact hspec.1
      · exact hspec.2.1
      · exact hspec.2.2.1
      · exact hspec.2.2.2.2.1
      · intro hn; rw [← hg]; exact hspec.2.2.2.2.2.1 hn
      · intro hsome; rw [← hg]; exact hspec.2.2.2.2.2.2 hsome

lemma getHypoTest_spec {eng : FitEngine} {c : ProfileLikelihoodCalculator}
    {r : Option HypoTestResult} {c1 : ProfileLikelihoodCalculator} {g cc : Nat}
    (hd : c.fData.isSome = true) (hp : c.fPdf.isSome = true)
    (hnull : c.fNullParams.isSome = true)
    (hrun : GetHypoTest eng c = Except.ok (r, c1, g, cc)) :
    c1.fFitResult.isSome = true ∧ c1.fData = c.fData ∧ c1.fPdf.isSome = true ∧
    c1.fPOI = c.fPOI ∧ c1.fNullParams = c.fNullParams ∧
    (c.fFitResult = none → g = 1) ∧ (c.fFitResult.isSome = true → g = 0) := by
  obtain ⟨d, hdd⟩ := Option.isSome_iff_exists.mp hd
  obtain ⟨pdf, hpp⟩ := Option.isSome_iff_exists.mp hp
  obtain ⟨nulls, hnn⟩ := Option.isSome_iff_exists.mp hnull
  simp only [GetHypoTest, hdd, hpp, hnn] at hrun
  split at hrun
  · cases hrun
  · rename_i x c1a ga heq
    have hspec := cacheStep_spec hd hp heq
    split at hrun
    · rename_i hnone
      rw [hnone] at hspec
      cases hspec.1
    · rename_i fit hfit
      split at hrun
      · split at hrun
        · rename_i fit2 hfit2
          simp only [Except.ok.injEq, Prod.mk.injEq] at hrun
          obtain ⟨-, hc, hg, -⟩ := hrun
          rw [← hc]
          refine ⟨hspec.1, hspec.2.1, rfl, hspec.2.2.2.1, hspec.2.2.2.2.1, ?_, ?_⟩
          · intro hn; rw [← hg]; exact hspec.2.2.2.2.2.1 hn
          · intro hsome; rw [← hg]; exact hspec.2.2.2.2.2.2 hsome
        · cases hrun
      · simp only [Except.ok.injEq, Prod.mk.injEq] at hrun
        obtain ⟨-, hc, hg, -⟩ := hrun
        rw [← hc]
        refine ⟨hspec.1, hspec.2.1, rfl, hspec.2.2.2.1, hspec.2.2.2.2.1, ?_, ?_⟩
        · intro hn; rw [← hg]; exact hspec.2.2.2.2.2.1 hn
        · intro hsome; rw [← hg]; exact hspec.2.2.2.2.2.2 hsome

lemma runQuery_spec {q : Query} {eng : FitEngine}
    {c c1 : ProfileLikelihoodCalculator} {g : Nat}
    (hfc : FullyConfigured c)
    (hrun : runQuery q eng c = Except.ok (c1, g)) :
    FullyConfigured c1 ∧ c1.fFitResult.isSome = true ∧
    (c.fFitResult = none → g = 1) ∧ (c.fFitResult.isSome = true → g = 0) := by
  obtain ⟨h1, h2, h3, h4⟩ := hfc
  cases q with
  | interval =>
    simp only [runQuery] at hrun
    split at hrun
    · cases hrun
    · rename_i x r c1a ga heq
      simp only [Except.ok.injEq, Prod.mk.injEq] at hrun
      obtain ⟨hc, hg⟩ := hrun
      subst hc
      subst hg
      have hs := getInterval_spec h1 h2 h3 heq
      refine ⟨⟨?_, ?_, hs.2.2.2.1, ?_⟩, hs.1, hs.2.2.2.2.2.1, hs.2.2.2.2.2.2⟩
      · rw [hs.2.1]; exact h1
      · rw [hs.2.2.1]; exact h2
      · rw [hs.2.2.2.2.1]; exact h4
  | hypoTest =>
    simp only [runQuery] at hrun
    split at hrun
    · cases hrun
    · rename_i x r c1a ga cca heq
      simp only [Except.ok.injEq, Prod.mk.injEq] at hrun
      obtain ⟨hc, hg⟩ := hrun
      subst hc
      subst hg
      have hs := getHypoTest_spec h1 h2 h4 heq
      refine ⟨⟨?_, hs.2.2.1, ?_, ?_⟩, hs.1, hs.2.2.2.2.2.1, hs.2.2.2.2.2.2⟩
      · rw [hs.2.1]; exact h1
      · rw [hs.2.2.2.1]; exact h3
      · rw [hs.2.2.2.2.1]; exact h4

/-! Analysis of the standard normal survival function: exact value at `0`
and two-sided Mills-ratio bounds used for the end-to-end scenario. -/

lemma gaussIntegrand_eq : (fun x : ℝ => Real.exp (-(x ^ 2) / 2)) =
    fun x : ℝ => Real.exp (-(1 / 2 : ℝ) * x ^ 2) := by
  funext x
  congr 1
  ring

lemma integrableOn_gauss (q : ℝ) :
    MeasureTheory.IntegrableOn (fun x : ℝ => Real.exp (-(x ^ 2) / 2)) (Set.Ioi q) := by
  rw [gaussIntegrand_eq]
  exact (integrable_exp_neg_mul_sq (by norm_num)).integrableOn

lemma SignificanceToPValue_zero : SignificanceToPValue 0 = 1 / 2 := by
  have h2 : (0:ℝ) < Real.sqrt (2 * Real.pi) := by
    apply Real.sqrt_pos.mpr
    positivity
  have h1 : (∫ x in Set.Ioi (0:ℝ), Real.exp (-(x ^ 2) / 2)) =
      Real.sqrt (2 * Real.pi) / 2 := by
    rw [gaussIntegrand_eq, integral_gaussian_Ioi]
    rw [show Real.pi / (1 / 2 : ℝ) = 2 * Real.pi by ring]
  have h3 : Real.sqrt (2 * Real.pi) ≠ 0 := ne_of_gt h2
  rw [SignificanceToPValue, h1]
  field_simp
  ring

lemma hasDerivAt_negGauss (x : ℝ) :
    HasDerivAt (fun y : ℝ => -Real.exp (-(y ^ 2) / 2))
      (x * Real.exp (-(x ^ 2) / 2)) x := by
  have h1 : HasDerivAt (fun y : ℝ => -(y ^ 2) / 2) (-x) x := by
    have h0 := ((hasDerivAt_pow 2 x).neg).div_const 2
    convert h0 using 1
    push_cast
    ring
  have h2 := (h1.exp).neg
  convert h2 using 1
  ring

lemma tendsto_negGauss :
    Filter.Tendsto (fun y : ℝ => -Real.exp (-(y ^ 2) / 2))
      Filter.atTop (nhds 0) := by
  have t1 : Filter.Tendsto (fun y : ℝ => y ^ 2 / 2) Filter.atTop Filter.atTop :=
    (Filter.tendsto_pow_atTop (by norm_num)).atTop_div_const (by norm_num)
  have t2 : Filter.Tendsto (fun y : ℝ => -(y ^ 2) / 2) Filter.atTop Filter.atBot := by
    refine (Filter.tendsto_neg_atTop_atBot.comp t1).congr (fun y => ?_)
    simp [Function.comp]
    ring
  have t3 : Filter.Tendsto (fun y : ℝ => Real.exp (-(y ^ 2) / 2))
      Filter.atTop (nhds 0) := Real.tendsto_exp_atBot.comp t2
  have t4 := t3.neg
  simpa using t4

lemma integral_x_gauss {q : ℝ} (hq : 0 < q) :
    ∫ x in Set.Ioi q, x * Real.exp (-(x ^ 2) / 2) = Real.exp (-(q ^ 2) / 2) := by
  have h := MeasureTheory.integral_Ioi_of_hasDerivAt_of_nonneg'
    (fun x _ => hasDerivAt_negGauss x)
    (fun x hx => by
      have hx0 : 0 < x := lt_trans hq hx
      positivity)
    tendsto_negGauss
  simpa using h

lemma integrableOn_x_gauss {q : ℝ} (hq : 0 < q) :
    MeasureTheory.IntegrableOn (fun x : ℝ => x * Real.exp (-(x ^ 2) / 2))
      (Set.Ioi q) :=
  MeasureTheory.integrableOn_Ioi_deriv_of_nonneg'
    (fun x _ => hasDerivAt_negGauss x)
    (fun x hx => by
      have hx0 : 0 < x := lt_trans hq hx
      positivity)
    tendsto_negGauss

lemma hasDerivAt_negGaussInv {x : ℝ} (hx : x ≠ 0) :
    HasDerivAt (fun y : ℝ => -(Real.exp (-(y ^ 2) / 2) * y⁻¹))
      ((1 + (x ^ 2)⁻¹) * Real.exp (-(x ^ 2) / 2)) x := by
  have h1 : HasDerivAt (fun y : ℝ => -(y ^ 2) / 2) (-x) x := by
    have h0 := ((hasDerivAt_pow 2 x).neg).div_const 2
    convert h0 using 1
    push_cast
    ring
  have h2 := ((h1.exp).mul (hasDerivAt_inv hx)).neg
  convert h2 using 1
  have hxx : x * x⁻¹ = 1 := mul_inv_cancel₀ hx
  field_simp
  ring

lemma tendsto_negGaussInv :
    Filter.Tendsto (fun y : ℝ => -(Real.exp (-(y ^ 2) / 2) * y⁻¹))
      Filter.atTop (nhds 0) := by
  have t1 : Filter.Tendsto (fun y : ℝ => y ^ 2 / 2) Filter.atTop Filter.atTop :=
    (Filter.tendsto_pow_atTop (by norm_num)).atTop_div_const (by norm_num)
  have t2 : Filter.Tendsto (fun y : ℝ => -(y ^ 2) / 2) Filter.atTop Filter.atBot := by
    refine (Filter.tendsto_neg_atTop_atBot.comp t1).congr (fun y => ?_)
    simp [Function.comp]
    ring
  have t3 : Filter.Tendsto (fun y : ℝ => Real.exp (-(y ^ 2) / 2))
      Filter.atTop (nhds 0) := Real.tendsto_exp_atBot.comp t2
  have t4 := (t3.mul tendsto_inv_atTop_zero).neg
  simpa using t4

lemma integral_one_add_inv_sq_gauss {q : ℝ} (hq : 0 < q) :
    ∫ x in Set.Ioi q, (1 + (x ^ 2)⁻¹) * Real.exp (-(x ^ 2) / 2) =
      Real.exp (-(q ^ 2) / 2) * q⁻¹ := by
  have h := MeasureTheory.integral_Ioi_of_hasDerivAt_of_nonneg'
    (fun x hx => hasDerivAt_negGaussInv (ne_of_gt (lt_of_lt_of_le hq hx)))
    (fun x hx => by
      have hx0 : 0 < x := lt_trans hq hx
      positivity)
    tendsto_negGaussInv
  simpa using h

lemma integrableOn_one_add_inv_sq_gauss {q : ℝ} (hq : 0 < q) :
    MeasureTheory.IntegrableOn
      (fun x : ℝ => (1 + (x ^ 2)⁻¹) * Real.exp (-(x ^ 2) / 2)) (Set.Ioi q) :=
  MeasureTheory.integrableOn_Ioi_deriv_of_nonneg'
    (fun x hx => hasDerivAt_negGaussInv (ne_of_gt (lt_of_lt_of_le hq hx)))
    (fun x hx => by
      have hx0 : 0 < x := lt_trans hq hx
      positivity)
    tendsto_negGaussInv

lemma mills_upper {q : ℝ} (hq : 0 < q) :
    (∫ x in Set.Ioi q, Real.exp (-(x ^ 2) / 2)) ≤ Real.exp (-(q ^ 2) / 2) / q := by
  have hmono : ∀ x ∈ Set.Ioi q,
      Real.exp (-(x ^ 2) / 2) ≤ q⁻¹ * (x * Real.exp (-(x ^ 2) / 2)) := by
    intro x hx
    have hqx : q ≤ x := le_of_lt hx
    have h1 : 1 ≤ q⁻¹ * x := by
      rw [← div_eq_inv_mul]
      exact (one_le_div hq).mpr hqx
    calc Real.exp (-(x ^ 2) / 2) = 1 * Real.exp (-(x ^ 2) / 2) := (one_mul _).symm
    _ ≤ q⁻¹ * x * Real.exp (-(x ^ 2) / 2) :=
      mul_le_mul_of_nonneg_right h1 (Real.exp_nonneg _)
    _ = q⁻¹ * (x * Real.exp (-(x ^ 2) / 2)) := by ring
  have hint : (∫ x in Set.Ioi q, Real.exp (-(x ^ 2) / 2)) ≤
      ∫ x in Set.Ioi q, q⁻¹ * (x * Real.exp (-(x ^ 2) / 2)) :=
    MeasureTheory.setIntegral_mono_on (integrableOn_gauss q)
      ((integrableOn_x_gauss hq).const_mul q⁻¹) measurableSet_Ioi hmono
  calc (∫ x in Set.Ioi q, Real.exp (-(x ^ 2) / 2)) ≤
      ∫ x in Set.Ioi q, q⁻¹ * (x * Real.exp (-(x ^ 2) / 2)) := hint
  _ = q⁻¹ * ∫ x in Set.Ioi q, x * Real.exp (-(x ^ 2) / 2) :=
      MeasureTheory.integral_mul_left q⁻¹ _
  _ = q⁻¹ * Real.exp (-(q ^ 2) / 2) := by rw [integral_x_gauss hq]
  _ = Real.exp (-(q ^ 2) / 2) / q := (div_eq_inv_mul _ _).symm

lemma mills_lower {q : ℝ} (hq : 0 < q) :
    q * Real.exp (-(q ^ 2) / 2) / (q ^ 2 + 1) ≤
      ∫ x in Set.Ioi q, Real.exp (-(x ^ 2) / 2) := by
  have hq0 : q ≠ 0 := ne_of_gt hq
  have hq2 : (0:ℝ) < q ^ 2 := pow_pos hq 2
  have key : (∫ x in Set.Ioi q, (1 + (x ^ 2)⁻¹) * Real.exp (-(x ^ 2) / 2)) ≤
      (1 + (q ^ 2)⁻¹) * ∫ x in Set.Ioi q, Real.exp (-(x ^ 2) / 2) := by
    rw [← MeasureTheory.integral_mul_left]
    apply MeasureTheory.setIntegral_mono_on (integrableOn_one_add_inv_sq_gauss hq)
      ((integrableOn_gauss q).const_mul _) measurableSet_Ioi
    intro x hx
    have hqx : q ≤ x := le_of_lt hx
    have hx0 : 0 < x := lt_of_lt_of_le hq hqx
    have h1 : (x ^ 2)⁻¹ ≤ (q ^ 2)⁻¹ :=
      inv_anti₀ hq2 (pow_le_pow_left₀ hq.le hqx 2)
    apply mul_le_mul_of_nonneg_right _ (Real.exp_nonneg _)
    linarith
  rw [integral_one_add_inv_sq_gauss hq] at key
  rw [div_le_iff₀ (by positivity)]
  have key3 := mul_le_mul_of_nonneg_right key (le_of_lt hq2)
  have e1 : Real.exp (-(q ^ 2) / 2) * q⁻¹ * q ^ 2 = q * Real.exp (-(q ^ 2) / 2) := by
    field_simp
    ring
  have e2 : (1 + (q ^ 2)⁻¹) * (∫ x in Set.Ioi q, Real.exp (-(x ^ 2) / 2)) * q ^ 2 =
      (∫ x in Set.Ioi q, Real.exp (-(x ^ 2) / 2)) * (q ^ 2 + 1) := by
    field_simp
    ring
  rw [e1, e2] at key3
  exact key3

/-! Numeric estimates for the end-to-end scenario: bounds on `exp (-26/5)`,
`sqrt 10.4` and `sqrt (2 * pi)`, and the resulting p-value window. -/

lemma exp_fifth_pow : Real.exp (1 / 5) ^ (5 : ℕ) = Real.exp 1 := by
  rw [← Real.exp_nat_mul]
  norm_num

lemma exp_fifth_lb : (1.2214 : ℝ) ≤ Real.exp (1 / 5) := by
  apply le_of_pow_le_pow_left₀ (n := 5) (by norm_num) (Real.exp_pos _).le
  rw [exp_fifth_pow]
  calc (1.2214 : ℝ) ^ 5 ≤ 2.7182818283 := by norm_num
  _ ≤ Real.exp 1 := le_of_lt Real.exp_one_gt_d9

lemma exp_fifth_ub : Real.exp (1 / 5) ≤ (1.2215 : ℝ) := by
  apply le_of_pow_le_pow_left₀ (n := 5) (by norm_num) (by norm_num)
  rw [exp_fifth_pow]
  calc Real.exp 1 ≤ 2.7182818286 := le_of_lt Real.exp_one_lt_d9
  _ ≤ (1.2215 : ℝ) ^ 5 := by norm_num

lemma exp_26_5_pow : Real.exp (1 / 5) ^ (26 : ℕ) = Real.exp (26 / 5) := by
  rw [← Real.exp_nat_mul]
  norm_num

lemma exp_26_5_lb : (181.23 : ℝ) ≤ Real.exp (26 / 5) := by
  rw [← exp_26_5_pow]
  calc (181.23 : ℝ) ≤ 1.2214 ^ 26 := by norm_num
  _ ≤ Real.exp (1 / 5) ^ 26 := pow_le_pow_left₀ (by norm_num) exp_fifth_lb 26

lemma exp_26_5_ub : Real.exp (26 / 5) ≤ (181.66 : ℝ) := by
  rw [← exp_26_5_pow]
  calc Real.exp (1 / 5) ^ 26 ≤ (1.2215 : ℝ) ^ 26 :=
    pow_le_pow_left₀ (Real.exp_pos _).le exp_fifth_ub 26
  _ ≤ (181.66 : ℝ) := by norm_num

lemma exp_neg_26_5_lb : (0.005504 : ℝ) ≤ Real.exp (-(26 / 5)) := by
  rw [Real.exp_neg]
  calc (0.005504 : ℝ) ≤ (181.66 : ℝ)⁻¹ := by norm_num
  _ ≤ (Real.exp (26 / 5))⁻¹ := inv_anti₀ (Real.exp_pos _) exp_26_5_ub

lemma exp_neg_26_5_ub : Real.exp (-(26 / 5)) ≤ (0.005518 : ℝ) := by
  rw [Real.exp_neg]
  calc (Real.exp (26 / 5))⁻¹ ≤ (181.23 : ℝ)⁻¹ := inv_anti₀ (by norm_num) exp_26_5_lb
  _ ≤ (0.005518 : ℝ) := by norm_num

lemma sqrt104_lb : (3.224 : ℝ) ≤ Real.sqrt 10.4 := by
  rw [show (3.224 : ℝ) = Real.sqrt (3.224 ^ 2) from
    (Real.sqrt_sq (by norm_num)).symm]
  apply Real.sqrt_le_sqrt
  norm_num

lemma sqrt104_ub : Real.sqrt 10.4 ≤ (3.23 : ℝ) := by
  rw [show (3.23 : ℝ) = Real.sqrt (3.23 ^ 2) from
    (Real.sqrt_sq (by norm_num)).symm]
  apply Real.sqrt_le_sqrt
  norm_num

lemma sqrt2pi_lb : (2.5065 : ℝ) ≤ Real.sqrt (2 * Real.pi) := by
  rw [show (2.5065 : ℝ) = Real.sqrt (2.5065 ^ 2) from
    (Real.sqrt_sq (by norm_num)).symm]
  apply Real.sqrt_le_sqrt
  nlinarith [Real.pi_gt_d4]

lemma sqrt2pi_ub : Real.sqrt (2 * Real.pi) ≤ (2.5067 : ℝ) := by
  rw [show (2.5067 : ℝ) = Real.sqrt (2.5067 ^ 2) from
    (Real.sqrt_sq (by norm_num)).symm]
  apply Real.sqrt_le_sqrt
  nlinarith [Real.pi_lt_d4]

lemma SignificanceToPValue_sqrt104_bounds :
    (0.00053 : ℝ) ≤ SignificanceToPValue (Real.sqrt 10.4) ∧
    SignificanceToPValue (Real.sqrt 10.4) ≤ (0.00073 : ℝ) := by
  have hq : (0:ℝ) < Real.sqrt 10.4 := Real.sqrt_pos.mpr (by norm_num)
  have hq2 : Real.sqrt 10.4 ^ 2 = 10.4 := Real.sq_sqrt (by norm_num)
  have hql : (3.224:ℝ) ≤ Real.sqrt 10.4 := sqrt104_lb
  have hs2l : (2.5065:ℝ) ≤ Real.sqrt (2 * Real.pi) := sqrt2pi_lb
  have hs2u : Real.sqrt (2 * Real.pi) ≤ (2.5067:ℝ) := sqrt2pi_ub
  have hs2pos : (0:ℝ) < Real.sqrt (2 * Real.pi) :=
    lt_of_lt_of_le (by norm_num) hs2l
  have hexpeq : Real.exp (-(Real.sqrt 10.4 ^ 2) / 2) = Real.exp (-(26 / 5)) := by
    rw [hq2]
    norm_num
  have hA_upper : (∫ x in Set.Ioi (Real.sqrt 10.4), Real.exp (-(x ^ 2) / 2)) ≤
      Real.exp (-(26 / 5)) / Real.sqrt 10.4 := by
    rw [← hexpeq]
    exact mills_upper hq
  have hA_lower : Real.sqrt 10.4 * Real.exp (-(26 / 5)) / (Real.sqrt 10.4 ^ 2 + 1) ≤
      ∫ x in Set.Ioi (Real.sqrt 10.4), Real.exp (-(x ^ 2) / 2) := by
    rw [← hexpeq]
    exact mills_lower hq
  rw [hq2] at hA_lower
  constructor
  · rw [SignificanceToPValue]
    have step1 : Real.sqrt 10.4 * Real.exp (-(26 / 5)) / (10.4 + 1) /
        Real.sqrt (2 * Real.pi) ≤
        (∫ x in Set.Ioi (Real.sqrt 10.4), Real.exp (-(x ^ 2) / 2)) /
        Real.sqrt (2 * Real.pi) :=
      (div_le_div_iff_of_pos_right hs2pos).mpr hA_lower
    refine le_trans ?_ step1
    rw [div_div]
    have hnum : (3.224 : ℝ) * 0.005504 ≤ Real.sqrt 10.4 * Real.exp (-(26 / 5)) :=
      mul_le_mul hql exp_neg_26_5_lb (by norm_num)
        (le_trans (by norm_num) hql)
    have hden : ((10.4 : ℝ) + 1) * Real.sqrt (2 * Real.pi) ≤ (10.4 + 1) * 2.5067 := by
      apply mul_le_mul_of_nonneg_left hs2u
      norm_num
    calc (0.00053 : ℝ) ≤ (3.224 * 0.005504) / ((10.4 + 1) * 2.5067) := by norm_num
    _ ≤ Real.sqrt 10.4 * Real.exp (-(26 / 5)) /
        ((10.4 + 1) * Real.sqrt (2 * Real.pi)) :=
      div_le_div₀ (by positivity) hnum (by positivity) hden
  · rw [SignificanceToPValue]
    have step1 : (∫ x in Set.Ioi (Real.sqrt 10.4), Real.exp (-(x ^ 2) / 2)) /
        Real.sqrt (2 * Real.pi) ≤
        Real.exp (-(26 / 5)) / Real.sqrt 10.4 / Real.sqrt (2 * Real.pi) :=
      (div_le_div_iff_of_pos_right hs2pos).mpr hA_upper
    refine le_trans step1 ?_
    rw [div_div]
    have hden : (3.224 : ℝ) * 2.5065 ≤ Real.sqrt 10.4 * Real.sqrt (2 * Real.pi) :=
      mul_le_mul hql hs2l (by norm_num) (le_trans (by norm_num) hql)
    calc Real.exp (-(26 / 5)) / (Real.sqrt 10.4 * Real.sqrt (2 * Real.pi)) ≤
        (0.005518 : ℝ) / (3.224 * 2.5065) :=
      div_le_div₀ (by norm_num) exp_neg_26_5_ub (by norm_num) hden
    _ ≤ (0.00073 : ℝ) := by norm_num

/-! The claims. -/

/-- C1: across any two interval/hypo-test queries on the same configured
calculator with no intervening reset, the unconditional global fit is
performed exactly once: the first query triggers it, the second reuses the
cached fit result. -/
theorem globalFit_once_across_two_queries
    (q1 q2 : Query) (eng : FitEngine) (c c1 c2 : ProfileLikelihoodCalculator)
    (g1 g2 : Nat)
    (hfc : FullyConfigured c) (h0 : c.fFitResult = none)
    (h1 : runQuery q1 eng c = Except.ok (c1, g1))
    (h2 : runQuery q2 eng c1 = Except.ok (c2, g2)) :
    g1 = 1 ∧ g2 = 0 := by
  have s1 := runQuery_spec hfc h1
  have s2 := runQuery_spec s1.1 h2
  exact ⟨s1.2.2.1 h0, s2.2.2.2 s1.2.1⟩

/-- Witness for C1: a hypo-test query followed by an interval query on the
fresh scenario calculator performs the global fit once and then reuses it. -/
theorem globalFit_once_witness : (1 : Nat) = 1 ∧ (0 : Nat) = 0 :=
  globalFit_once_across_two_queries Query.hypoTest Query.interval scenarioEngine
    scenarioCalc cachedCalc cachedCalc 1 0 ⟨rfl, rfl, rfl, rfl⟩ rfl rfl rfl

/-- C2: when the external fitting engine produces no fit result, the source
dereferences the null result (`fit->Print()` in `DoGlobalFit`,
`fit2->minNll()` in the conditional branch of `GetHypoTest`) instead of
returning an empty result: the call crashes. -/
theorem engineFailure_crashes :
    GetInterval failEngine scenarioCalc = Except.error RTErr.nullDeref ∧
    GetHypoTest failEngine scenarioCalc = Except.error RTErr.nullDeref ∧
    GetHypoTest condFailEngine scenarioCalc = Except.error RTErr.nullDeref :=
  ⟨rfl, rfl, rfl⟩

/-- C3: after every `GetHypoTest` call that returns, each null parameter
found in the free-parameter set has its entry in the parameter store (value,
error and constant flag) restored to the pre-call state, and its constant
flag is clear, regardless of the branch taken. -/
theorem getHypoTest_restores_null_params
    (eng : FitEngine) (c : ProfileLikelihoodCalculator) (pdf : Pdf)
    (nulls : List Param) (res : Option HypoTestResult)
    (c1 : ProfileLikelihoodCalculator) (g cc : Nat)
    (hp : c.fPdf = some pdf) (hnull : c.fNullParams = some nulls)
    (hstN : (paramNames pdf.params).Nodup) (hnsN : (paramNames nulls).Nodup)
    (hrun : GetHypoTest eng c = Except.ok (res, c1, g, cc)) :
    ∃ pdf1, c1.fPdf = some pdf1 ∧
      ∀ np ∈ nulls, np.name ∈ constrainedParamNames pdf →
        findByName pdf1.params np.name = findByName pdf.params np.name ∧
        ∃ p, findByName pdf1.params np.name = some p ∧ p.isConstant = false := by
  have hstate := getHypoTest_state hp hnull hrun
  have hfr : restoreNulls (constrainedParamNames pdf)
      (nulls.zip (freezeNulls (constrainedParamNames pdf) pdf.params nulls).2)
      (freezeNulls (constrainedParamNames pdf) pdf.params nulls).1 = pdf.params :=
    freeze_restore _ nulls pdf.params hstN hnsN
      (fun np _ hmem => constrainedParamNames_spec hstN np.name hmem)
  have hgoal : ∀ np ∈ nulls, np.name ∈ constrainedParamNames pdf →
      findByName pdf.params np.name = findByName pdf.params np.name ∧
      ∃ p, findByName pdf.params np.name = some p ∧ p.isConstant = false := by
    intro np hnp hmem
    obtain ⟨p, hp2, hc2⟩ := constrainedParamNames_spec hstN np.name hmem
    exact ⟨rfl, p, hp2, hc2⟩
  rcases hstate with h | h
  · exact ⟨pdf, h, hgoal⟩
  · rw [hfr] at h
    exact ⟨pdf, h, hgoal⟩

/-- Witness for C3: the scenario hypo-test restores the frozen `mu`. -/
theorem getHypoTest_restores_witness :
    ∃ pdf1, cachedCalc.fPdf = some pdf1 ∧
      ∀ np ∈ [nullMu], np.name ∈ constrainedParamNames scenarioPdf →
        findByName pdf1.params np.name = findByName scenarioPdf.params np.name ∧
        ∃ p, findByName pdf1.params np.name = some p ∧ p.isConstant = false :=
  getHypoTest_restores_null_params scenarioEngine scenarioCalc scenarioPdf
    [nullMu]
    (some { nullPValue := hypoTestPValue 15.2 10, altPValue := 0 })
    cachedCalc 1 1 rfl rfl (by decide) (by decide) rfl

/-- C4: when the conditional NLL comes out below the unconditional NLL the
clamped test statistic `sqrt(2 * max(NLLcond - NLLmle, 0))` is exactly `0`
and the returned p-value is the survival function at `0`. -/
theorem deltaNLL_clamped
    (eng : FitEngine) (c : ProfileLikelihoodCalculator) (pdf : Pdf)
    (nulls : List Param) (fit fit2 : RooFitResult)
    (hd : c.fData = some ()) (hp : c.fPdf = some pdf)
    (hnull : c.fNullParams = some nulls) (hfit : c.fFitResult = some fit)
    (hev : existVarParams
      (nuisNames (constrainedParamNames pdf)
        (freezeNulls (constrainedParamNames pdf) pdf.params nulls).1)
      (freezeNulls (constrainedParamNames pdf) pdf.params nulls).1 = true)
    (hfit2 : eng.fitTo condFitConfig (constrainedParamNames pdf)
      (freezeNulls (constrainedParamNames pdf) pdf.params nulls).1 = some fit2)
    (hlt : fit2.minNll < fit.minNll) :
    Real.sqrt (2 * max (fit2.minNll - fit.minNll) 0) = 0 ∧
    ∃ c1, GetHypoTest eng c = Except.ok (some
      { nullPValue := SignificanceToPValue 0, altPValue := 0 }, c1, 0, 1) := by
  have hmax : max (fit2.minNll - fit.minNll) 0 = 0 := max_eq_right (by linarith)
  have hq0 : Real.sqrt (2 * max (fit2.minNll - fit.minNll) 0) = 0 := by
    rw [hmax, mul_zero, Real.sqrt_zero]
  refine ⟨hq0, ?_⟩
  have hrun := getHypoTest_run_fit hd hp hnull hfit hev hfit2
  rw [hypoTestPValue, hq0] at hrun
  exact ⟨_, hrun⟩

/-- Witness for C4: a conditional NLL of `9` against an unconditional NLL of
`10` yields the zero test statistic. -/
theorem deltaNLL_clamped_witness :
    Real.sqrt (2 * max (condLowFitW.minNll - globalFitW.minNll) 0) = 0 ∧
    ∃ c1, GetHypoTest clampEngine cachedCalc = Except.ok (some
      { nullPValue := SignificanceToPValue 0, altPValue := 0 }, c1, 0, 1) :=
  deltaNLL_clamped clampEngine cachedCalc scenarioPdf [nullMu] globalFitW
    condLowFitW rfl rfl rfl rfl (by decide) rfl
    (by norm_num [condLowFitW, globalFitW])

/-- C5: the returned p-value is the standard normal survival function at
`sqrt(2 * deltaNLL)`; for an unconditional NLL of `10` and a conditional NLL
of `15.2` it lies within `1e-4` of `6.3e-4`. -/
theorem hypoTest_pvalue_scenario :
    (∃ c1, GetHypoTest scenarioEngine scenarioCalc = Except.ok (some
      { nullPValue :=
          SignificanceToPValue (Real.sqrt (2 * max ((15.2 : ℝ) - 10) 0)),
        altPValue := 0 }, c1, 1, 1)) ∧
    |SignificanceToPValue (Real.sqrt (2 * max ((15.2 : ℝ) - 10) 0)) - 0.00063| ≤
      0.0001 := by
  constructor
  · exact ⟨cachedCalc, rfl⟩
  · have heq : (2 : ℝ) * max ((15.2 : ℝ) - 10) 0 = 10.4 := by
      rw [show ((15.2 : ℝ) - 10) = 5.2 by norm_num,
        max_eq_left (by norm_num : (0:ℝ) ≤ 5.2)]
      norm_num
    rw [heq]
    have hb := SignificanceToPValue_sqrt104_bounds
    rw [abs_le]
    constructor <;> linarith [hb.1, hb.2]

/-- C6: a successful interval has confidence level exactly `1 - size`, and
its best-fit POI set takes, for each configured POI, the fitted parameter
when the name matches a fitted floating parameter and the original POI
otherwise. -/
theorem getInterval_cl_and_bestPOI
    (eng : FitEngine) (c : ProfileLikelihoodCalculator) (pdf : Pdf)
    (poi : List Param) (fit : RooFitResult)
    (hd : c.fData = some ()) (hp : c.fPdf = some pdf) (hpoi : c.fPOI = some poi)
    (hfit : c.fFitResult = some fit)
    (hn1 : (paramNames poi).Nodup) (hn2 : (paramNames fit.floatParsFinal).Nodup) :
    ∃ ival c1, GetInterval eng c = Except.ok (some ival, c1, 0) ∧
      ival.confidenceLevel = 1 - c.fSize ∧
      ival.bestPOI = poi.map (fun a =>
        match findByName fit.floatParsFinal a.name with
        | some fp => fp
        | none => a) := by
  refine ⟨_, _, getInterval_cached hd hp hpoi hfit, rfl, ?_⟩
  rw [buildBestPOI_eq_map _ (by rw [setPOIFromFit_names]; exact hn1)]
  rw [setPOIFromFit_eq_map _ _ hn2 hn1, List.map_map]
  apply List.map_congr_left
  intro a _
  simp only [Function.comp_apply]
  cases hfa : findByName fit.floatParsFinal a.name with
  | some fp => simp [hfa]
  | none => simp [hfa]

/-- Witness for C6: the scenario interval at size `0.05` with the cached
fit result. -/
theorem getInterval_cl_and_bestPOI_witness :
    ∃ ival c1, GetInterval scenarioEngine cachedCalc = Except.ok (some ival, c1, 0) ∧
      ival.confidenceLevel = 1 - cachedCalc.fSize ∧
      ival.bestPOI = [muParam].map (fun a =>
        match findByName globalFitW.floatParsFinal a.name with
        | some fp => fp
        | none => a) :=
  getInterval_cl_and_bestPOI scenarioEngine cachedCalc scenarioPdf [muParam]
    globalFitW rfl rfl rfl rfl (by decide) (by decide)

/-- C7: when no free parameter remains after freezing the null parameters,
no conditional fit is invoked (conditional-fit count `0`) and the
conditional NLL is the direct NLL evaluation at the frozen values. -/
theorem getHypoTest_noFreeParams
    (eng : FitEngine) (c : ProfileLikelihoodCalculator) (pdf : Pdf)
    (nulls : List Param) (fit : RooFitResult)
    (hd : c.fData = some ()) (hp : c.fPdf = some pdf)
    (hnull : c.fNullParams = some nulls) (hfit : c.fFitResult = some fit)
    (hev : existVarParams
      (nuisNames (constrainedParamNames pdf)
        (freezeNulls (constrainedParamNames pdf) pdf.params nulls).1)
      (freezeNulls (constrainedParamNames pdf) pdf.params nulls).1 = false) :
    ∃ c1, GetHypoTest eng c = Except.ok (some
      { nullPValue := hypoTestPValue
          (eng.nllVal (constrainedParamNames pdf)
            (freezeNulls (constrainedParamNames pdf) pdf.params nulls).1)
          fit.minNll,
        altPValue := 0 }, c1, 0, 0) :=
  ⟨_, getHypoTest_run_noFit hd hp hnull hfit hev⟩

/-- Witness for C7: a model whose only parameter is the POI itself. -/
theorem getHypoTest_noFreeParams_witness :
    ∃ c1, GetHypoTest scenarioEngine noFreeCalc = Except.ok (some
      { nullPValue := hypoTestPValue
          (scenarioEngine.nllVal (constrainedParamNames noFreePdf)
            (freezeNulls (constrainedParamNames noFreePdf) noFreePdf.params
              [nullMu]).1)
          globalFitW.minNll,
        altPValue := 0 }, c1, 0, 0) :=
  getHypoTest_noFreeParams scenarioEngine noFreeCalc noFreePdf [nullMu]
    globalFitW rfl rfl rfl rfl (by decide)

/-- C8: with dataset, model or POI set absent, `GetInterval` returns an
empty result immediately on the unchanged state with zero fit invocations;
likewise `GetHypoTest` with dataset, model or null-parameter set absent. -/
theorem missing_inputs_empty (eng : FitEngine) (c : ProfileLikelihoodCalculator) :
    (c.fData = none ∨ c.fPdf = none ∨ c.fPOI = none →
      GetInterval eng c = Except.ok (none, c, 0)) ∧
    (c.fData = none ∨ c.fPdf = none ∨ c.fNullParams = none →
      GetHypoTest eng c = Except.ok (none, c, 0, 0)) := by
  constructor
  · rintro (h | h | h) <;>
      cases hdata : c.fData <;> cases hpdf : c.fPdf <;> cases hpoi : c.fPOI <;>
        simp_all [GetInterval]
  · rintro (h | h | h) <;>
      cases hdata : c.fData <;> cases hpdf : c.fPdf <;> cases hnn : c.fNullParams <;>
        simp_all [GetHypoTest]

/-- Witness for C8: a calculator with data and pdf but no POI and no null
parameters returns empty from both queries with zero fits. -/
theorem missing_inputs_witness :
    GetInterval failEngine noPOICalc = Except.ok (none, noPOICalc, 0) ∧
    GetHypoTest failEngine noPOICalc = Except.ok (none, noPOICalc, 0, 0) :=
  ⟨(missing_inputs_empty failEngine noPOICalc).1 (Or.inr (Or.inr rfl)),
   (missing_inputs_empty failEngine noPOICalc).2 (Or.inr (Or.inr rfl))⟩

/-- C9: a successful `GetInterval` leaves the calculator with every POI
whose name matches a fitted floating parameter overwritten with the fitted
value and error, with no restoration. -/
theorem getInterval_overwrites_poi
    (eng : FitEngine) (c : ProfileLikelihoodCalculator) (pdf : Pdf)
    (poi : List Param) (fit : RooFitResult)
    (hd : c.fData = some ()) (hp : c.fPdf = some pdf) (hpoi : c.fPOI = some poi)
    (hfit : c.fFitResult = some fit)
    (hn1 : (paramNames poi).Nodup) (hn2 : (paramNames fit.floatParsFinal).Nodup) :
    ∃ ival, GetInterval eng c = Except.ok (some ival,
      { c with fPOI := some (poi.map (fun a =>
          match findByName fit.floatParsFinal a.name with
          | some fp => { a with val := fp.val, error := fp.error }
          | none => a)) }, 0) := by
  have h := @getInterval_cached eng c pdf poi fit hd hp hpoi hfit
  rw [setPOIFromFit_eq_map _ _ hn2 hn1] at h
  exact ⟨_, h⟩

/-- Witness for C9: the scenario interval overwrites the POI `mu` with the
fitted value and error. -/
theorem getInterval_overwrites_poi_witness :
    ∃ ival, GetInterval scenarioEngine cachedCalc = Except.ok (some ival,
      { cachedCalc with fPOI := some ([muParam].map (fun a =>
          match findByName globalFitW.floatParsFinal a.name with
          | some fp => { a with val := fp.val, error := fp.error }
          | none => a)) }, 0) :=
  getInterval_overwrites_poi scenarioEngine cachedCalc scenarioPdf [muParam]
    globalFitW rfl rfl rfl rfl (by decide) (by decide)

/-- C10: whenever the conditional NLL is at most the unconditional NLL, the
returned p-value is exactly `1/2`, the survival function at `0`. -/
theorem clamped_pvalue_half
    (eng : FitEngine) (c : ProfileLikelihoodCalculator) (pdf : Pdf)
    (nulls : List Param) (fit fit2 : RooFitResult)
    (hd : c.fData = some ()) (hp : c.fPdf = some pdf)
    (hnull : c.fNullParams = some nulls) (hfit : c.fFitResult = some fit)
    (hev : existVarParams
      (nuisNames (constrainedParamNames pdf)
        (freezeNulls (constrainedParamNames pdf) pdf.params nulls).1)
      (freezeNulls (constrainedParamNames pdf) pdf.params nulls).1 = true)
    (hfit2 : eng.fitTo condFitConfig (constrainedParamNames pdf)
      (freezeNulls (constrainedParamNames pdf) pdf.params nulls).1 = some fit2)
    (hle : fit2.minNll ≤ fit.minNll) :
    ∃ c1, GetHypoTest eng c = Except.ok (some
      { nullPValue := 1 / 2, altPValue := 0 }, c1, 0, 1) := by
  have hrun := getHypoTest_run_fit hd hp hnull hfit hev hfit2
  have hpv : hypoTestPValue fit2.minNll fit.minNll = 1 / 2 := by
    rw [hypoTestPValue, max_eq_right (by linarith), mul_zero, Real.sqrt_zero,
      SignificanceToPValue_zero]
  rw [hpv] at hrun
  exact ⟨_, hrun⟩

/-- Witness for C10: the clamping fixture returns a p-value of exactly
`1/2`. -/
theorem clamped_pvalue_half_witness :
    ∃ c1, GetHypoTest clampEngine cachedCalc = Except.ok (some
      { nullPValue := 1 / 2, altPValue := 0 }, c1, 0, 1) :=
  clamped_pvalue_half clampEngine cachedCalc scenarioPdf [nullMu] globalFitW
    condLowFitW rfl rfl rfl rfl (by decide) rfl
    (by norm_num [condLowFitW, globalFitW])

end RooStats
